import Mathlib

/-!
A shallow embedding of `dsmr_parser/parsers.py` (DSMR telegram parsing):
token extraction, value decoding, per-object line decoding, checksum
validation and telegram orchestration, with theorems checking the
specification's claims about them.

Python exceptions are modelled with `Except`; fallible functions return
`Except PyExc`.  Strings are handled through their character lists.
-/

/-- The exception kinds that can escape the parsing code: the library's own
`ParseError` and `InvalidChecksumError`, plus Python's built-in `ValueError`
(raised by tuple unpacking of `str.split` and by `int(_, 16)`) and
`NotImplementedError`. -/
inductive PyExc where
  | parseError
  | invalidChecksumError (calculated expected : Nat)
  | valueError
  | notImplementedError
deriving DecidableEq

/-- The dict `{'value': ..., 'unit': ...}` returned by `ValueParser.parse`:
an optional coerced value and an optional unit string. -/
structure ValueGroup (α : Type) where
  value : Option α
  unit : Option String
deriving DecidableEq

/-- The character class `[0-9a-zA-Z\.\*]` of the value-group regex in
`DSMRObjectParser._parse`. -/
def isTokenChar (c : Char) : Bool :=
  c.isDigit || c.isAlpha || c == '.' || c == '*'

/-- One pass of `re.findall(r'((?<=\()[0-9a-zA-Z\.\*]{0,}(?=\)))+', line)`:
scan the line; after each `(`, collect characters of the token class, and
emit them as a token when the run ends exactly at a `)` (the lookahead).
The accumulator is `some acc` while inside a candidate group. -/
def extractAux : List Char → Option (List Char) → List String
  | [], _ => []
  | c :: rest, none =>
      if c = '(' then extractAux rest (some []) else extractAux rest none
  | c :: rest, some acc =>
      if isTokenChar c then extractAux rest (some (acc ++ [c]))
      else if c = ')' then acc.asString :: extractAux rest none
      else if c = '(' then extractAux rest (some [])
      else extractAux rest none

/-- The value tokens of a line, as extracted by the regex in
`DSMRObjectParser._parse`. -/
def extractTokens (l : List Char) : List String :=
  extractAux l none

/-- `values = [None if value == '' else value for value in values]`
applied to the extracted tokens of a line. -/
def toOptTokens (line : String) : List (Option String) :=
  (extractTokens line.data).map (fun t => if t = "" then none else some t)

/-- Python's `str.split(sep)` for a one-character separator: the list of
chunks between occurrences of `sep` (an empty input yields `[[]]`). -/
def pySplit (sep : Char) : List Char → List (List Char)
  | [] => [[]]
  | c :: rest =>
      if c = sep then [] :: pySplit sep rest
      else
        match pySplit sep rest with
        | h :: t => (c :: h) :: t
        | [] => [[c]]

/-- `ValueParser.parse`: `None` stays absent and is never coerced; a present
token with a `*` is split by `value, unit = value.split('*')` (a `ValueError`
unless the split has exactly two parts) and the value part is coerced;
otherwise the whole token is coerced and the unit is absent. -/
def ValueParser.parse {α : Type} (coerce : String → Except PyExc α) :
    Option String → Except PyExc (ValueGroup α)
  | none => .ok ⟨none, none⟩
  | some s =>
      if s.data ≠ [] ∧ '*' ∈ s.data then
        match pySplit '*' s.data with
        | [v, u] =>
            match coerce v.asString with
            | .ok cv => .ok ⟨some cv, some u.asString⟩
            | .error e => .error e
        | _ => .error .valueError
      else
        match coerce s with
        | .ok cv => .ok ⟨some cv, none⟩
        | .error e => .error e

/-- The list comprehension
`[self.value_formats[i].parse(value) for i, value in enumerate(values)]`:
decode the tokens in order with their matching coercions, propagating the
first exception. -/
def decodeAll {α : Type} : List (String → Except PyExc α) →
    List (Option String) → Except PyExc (List (ValueGroup α))
  | f :: fs, v :: vs =>
      match ValueParser.parse f v with
      | .error e => .error e
      | .ok r =>
          match decodeAll fs vs with
          | .error e => .error e
          | .ok rest => .ok (r :: rest)
  | _, _ => .ok []

/-- `DSMRObjectParser._parse`: extract the value tokens of the line, map
empty groups to `None`, raise `ParseError` when the list is empty or its
length differs from the number of configured value formats, and otherwise
decode each token. -/
def DSMRObjectParser._parse {α : Type} (fs : List (String → Except PyExc α))
    (line : String) : Except PyExc (List (ValueGroup α)) :=
  if (toOptTokens line).isEmpty ∨ (toOptTokens line).length ≠ fs.length then
    .error .parseError
  else decodeAll fs (toOptTokens line)

/-- The two object shapes `MBusParser.parse` can build: `MBusObject`
(the legacy two-value shape) and `MBusObjectV2_2` (timestamp, value, unit,
...).  Both wrap the decoded value groups of the line. -/
inductive MBusResult (α : Type) where
  | mbusObject (values : List (ValueGroup α))
  | mbusObjectV2_2 (values : List (ValueGroup α))
deriving DecidableEq

/-- `MBusParser.parse`: decode the line with `_parse` and wrap the result in
`MBusObject` when exactly two values were decoded, `MBusObjectV2_2`
otherwise. -/
def MBusParser.parse {α : Type} (fs : List (String → Except PyExc α))
    (line : String) : Except PyExc (MBusResult α) :=
  match DSMRObjectParser._parse fs line with
  | .error e => .error e
  | .ok values =>
      if values.length = 2 then .ok (.mbusObject values)
      else .ok (.mbusObjectV2_2 values)

/-- `CosemParser.parse`: decode the line with `_parse` and wrap the decoded
value groups in a `CosemObject`. -/
def CosemParser.parse {α : Type} (fs : List (String → Except PyExc α))
    (line : String) : Except PyExc (List (ValueGroup α)) :=
  DSMRObjectParser._parse fs line

/-- `ProfileGenericParser.parse`: `raise NotImplementedError()`. -/
def ProfileGenericParser.parse {α : Type}
    (_fs : List (String → Except PyExc α)) (_line : String) :
    Except PyExc (List (ValueGroup α)) :=
  .error .notImplementedError

/-- Split a character list at its LAST `'!'`: `splitLastBang l = some (a, b)`
means `l = a ++ '!' :: b` with no `'!'` in `b`.  This is how the greedy
`re.search(r'\/.+\!', telegram, re.DOTALL)` picks the closing `!` of the
checksum-covered span in `TelegramParser.validate_checksum`. -/
def splitLastBang : List Char → Option (List Char × List Char)
  | [] => none
  | c :: rest =>
      match splitLastBang rest with
      | some (a, b) => some (c :: a, b)
      | none => if c = '!' then some ([], rest) else none

/-- `re.search(r'\/.+\!', telegram, re.DOTALL)`: the match starts at the
leftmost `/` from which the pattern can match, and the greedy `.+` runs to
the last `!` that leaves at least one character after the `/`. -/
def checksumContentsL : List Char → Option (List Char)
  | [] => none
  | c :: rest =>
      if c = '/' then
        match splitLastBang rest with
        | some (a, _) =>
            if a.isEmpty then checksumContentsL rest
            else some ('/' :: (a ++ ['!']))
        | none => checksumContentsL rest
      else checksumContentsL rest

/-- The checksum-covered span of a telegram (`checksum_contents.group(0)`). -/
def checksumContents (s : String) : Option String :=
  (checksumContentsL s.data).map List.asString

/-- Split a character list at its FIRST `'!'`. -/
def splitFirstBang : List Char → Option (List Char × List Char)
  | [] => none
  | c :: rest =>
      if c = '!' then some ([], rest)
      else
        match splitFirstBang rest with
        | some (a, b) => some (c :: a, b)
        | none => none

/-- Modelled from the spec's words, for comparison with `checksumContents`:
"the substring from the first `/` through the first subsequent `!`,
inclusive" (list level). -/
def checksumContentsSpecL : List Char → Option (List Char)
  | [] => none
  | c :: rest =>
      if c = '/' then
        match splitFirstBang rest with
        | some (a, _) => some ('/' :: a ++ ['!'])
        | none => none
      else checksumContentsSpecL rest

/-- Modelled from the spec's words, for comparison with `checksumContents`:
"the substring from the first `/` through the first subsequent `!`,
inclusive". -/
def checksumContentsSpec (s : String) : Option String :=
  (checksumContentsSpecL s.data).map List.asString

/-- The character class `[0-9A-Z]` of the checksum regex
`((?<=\!)[0-9A-Z]{4})+`: digits and ALL uppercase letters (wider than the
hexadecimal digits). -/
def isUpperAlnum (c : Char) : Bool :=
  c.isDigit || ('A' ≤ c && c ≤ 'Z')

/-- `re.search(r'((?<=\!)[0-9A-Z]{4})+', telegram)`: the first four
`[0-9A-Z]` characters immediately following a `!`.  (The lookbehind inside
the repeated group keeps any further repetition from matching, so the whole
match is always exactly four characters.) -/
def checksumHexL : List Char → Option (List Char)
  | [] => none
  | c :: rest =>
      if c = '!' then
        match rest with
        | a :: b :: d :: e :: _ =>
            if isUpperAlnum a && isUpperAlnum b && isUpperAlnum d &&
                isUpperAlnum e then
              some [a, b, d, e]
            else checksumHexL rest
        | _ => checksumHexL rest
      else checksumHexL rest

/-- The value of one hexadecimal digit, if the character is one. -/
def hexDigitVal? (c : Char) : Option Nat :=
  if c.isDigit then some (c.toNat - '0'.toNat)
  else if 'a' ≤ c ∧ c ≤ 'f' then some (c.toNat - 'a'.toNat + 10)
  else if 'A' ≤ c ∧ c ≤ 'F' then some (c.toNat - 'A'.toNat + 10)
  else none

/-- Helper for `hexVal?`: fold hexadecimal digits into an accumulator,
failing on the first non-digit. -/
def hexValAux : List Char → Nat → Option Nat
  | [], acc => some acc
  | c :: rest, acc =>
      match hexDigitVal? c with
      | some d => hexValAux rest (16 * acc + d)
      | none => none

/-- Python's `int(s, base=16)` on the strings reachable here (nonempty runs
of `[0-9A-Z]` characters): the value when every character is a hexadecimal
digit, `none` (a `ValueError`) otherwise. -/
def hexVal? (l : List Char) : Option Nat :=
  if l.isEmpty then none else hexValAux l 0

/-- One bit round of the reflected CRC16: shift right, conditionally xor the
reflected polynomial `0xA001`. -/
def crcRound (crc : Nat) : Nat :=
  if crc % 2 = 1 then (crc / 2) ^^^ 0xA001 else crc / 2

/-- Modelled from the spec: the `PyCRC.CRC16` dependency is not under
`src/`; §4.4 fixes it as "standard CRC16 ... IBM/ANSI variant", i.e. the
reflected-0xA001, zero-initialised byte-wise CRC.  One byte step. -/
def crc16Byte (crc b : Nat) : Nat :=
  Nat.iterate crcRound 8 (crc ^^^ (b % 256))

/-- Modelled from the spec: CRC16 (IBM/ANSI, reflected) over the span's
characters taken as bytes, initial value 0. -/
def crc16 (l : List Char) : Nat :=
  l.foldl (fun crc c => crc16Byte crc (c.toNat % 256)) 0

/-- `TelegramParser.validate_checksum`: extract the covered span and the
expected checksum characters, raise `ParseError` if either is missing,
compute the CRC, convert the expected characters with `int(_, 16)` (a
`ValueError` when they are not hexadecimal), and raise
`InvalidChecksumError` on a mismatch. -/
def TelegramParser.validate_checksum (telegram : String) :
    Except PyExc Unit :=
  match checksumContentsL telegram.data, checksumHexL telegram.data with
  | some contents, some hex =>
      let calculated := crc16 contents
      match hexVal? hex with
      | some expected =>
          if calculated ≠ expected then
            .error (.invalidChecksumError calculated expected)
          else .ok ()
      | none => .error .valueError
  | _, _ => .error .parseError

/-- One entry of the telegram specification dict: a signature, the search
for that signature in the telegram text (`re.search(signature, data,
re.DOTALL)`, abstracted to the matched substring when there is one), and
the object parser attached to the signature. -/
structure SpecEntry (α : Type) where
  signature : String
  search : String → Option String
  parse : String → Except PyExc α

/-- The loop of `TelegramParser.parse`: for each specification entry in
order, search the telegram text; on a match, decode the matched substring
and append the result under the entry's signature; a missing match adds
nothing; a decoder exception aborts the whole decode. -/
def parseEntries {α : Type} (data : String) :
    List (SpecEntry α) → List (String × α) →
    Except PyExc (List (String × α))
  | [], acc => .ok acc
  | e :: rest, acc =>
      match e.search data with
      | some m =>
          match e.parse m with
          | .ok v => parseEntries data rest (acc ++ [(e.signature, v)])
          | .error err => .error err
      | none => parseEntries data rest acc

/-- `TelegramParser.parse`: optionally validate the checksum first
(propagating its failure), then run every specification entry over the
telegram text and return the accumulated signature-keyed mapping. -/
def TelegramParser.parse {α : Type} (enableChecksumValidation : Bool)
    (spec : List (SpecEntry α)) (data : String) :
    Except PyExc (List (String × α)) :=
  if enableChecksumValidation then
    match TelegramParser.validate_checksum data with
    | .error e => .error e
    | .ok _ => parseEntries data spec []
  else parseEntries data spec []

/-! ## Helper lemmas -/

theorem asString_data (l : List Char) : (List.asString l).data = l := rfl

theorem pySplit_of_not_mem {sep : Char} {l : List Char} (h : sep ∉ l) :
    pySplit sep l = [l] := by
  induction l with
  | nil => rfl
  | cons c rest ih =>
      have hc : ¬c = sep := fun e => h (e ▸ List.mem_cons_self c rest)
      have hr : sep ∉ rest := fun m => h (List.mem_cons_of_mem c m)
      simp [pySplit, hc, ih hr]

theorem pySplit_append {sep : Char} {u : List Char} (v : List Char)
    (h : sep ∉ u) : pySplit sep (u ++ sep :: v) = u :: pySplit sep v := by
  induction u with
  | nil => simp [pySplit]
  | cons c rest ih =>
      have hc : ¬c = sep := fun e => h (e ▸ List.mem_cons_self c rest)
      have hr : sep ∉ rest := fun m => h (List.mem_cons_of_mem c m)
      simp only [List.cons_append, pySplit, hc, if_false, List.append_eq,
        ih hr]

theorem pySplit_length (sep : Char) (l : List Char) :
    (pySplit sep l).length = l.count sep + 1 := by
  induction l with
  | nil => rfl
  | cons c rest ih =>
      by_cases hc : c = sep
      · subst hc
        simp [pySplit, List.count_cons, ih]
      · rcases hp : pySplit sep rest with _ | ⟨hd, t⟩
        · rw [hp] at ih
          simp at ih
        · rw [hp] at ih
          have hstep : pySplit sep (c :: rest) = (c :: hd) :: t := by
            simp [pySplit, hc, hp]
          rw [hstep, List.length_cons, List.count_cons]
          simp only [beq_iff_eq, hc, if_false, List.length_cons] at *
          omega

theorem decodeAll_ok_length {α : Type} :
    ∀ (fs : List (String → Except PyExc α)) (vs : List (Option String))
      (out : List (ValueGroup α)), decodeAll fs vs = .ok out →
      out.length = min fs.length vs.length := by
  intro fs
  induction fs with
  | nil => intro vs out h; cases vs <;> simp [decodeAll] at h <;> simp [← h]
  | cons f fs ih =>
      intro vs out h
      cases vs with
      | nil => simp [decodeAll] at h; simp [← h]
      | cons v vs =>
          simp only [decodeAll] at h
          rcases hp : ValueParser.parse f v with e | r <;> rw [hp] at h
          · exact absurd h (by simp)
          · rcases hd : decodeAll fs vs with e | rest <;> rw [hd] at h
            · exact absurd h (by simp)
            · cases h
              have := ih vs rest hd
              simp [this, Nat.succ_min_succ]

theorem _parse_ok_lengths {α : Type} {fs : List (String → Except PyExc α)}
    {line : String} {vs : List (ValueGroup α)}
    (h : DSMRObjectParser._parse fs line = .ok vs) :
    vs.length = (toOptTokens line).length ∧
      (toOptTokens line).length = fs.length := by
  unfold DSMRObjectParser._parse at h
  by_cases hc :
      (toOptTokens line).isEmpty ∨ (toOptTokens line).length ≠ fs.length
  · rw [if_pos hc] at h; exact absurd h (by simp)
  · rw [if_neg hc] at h
    push_neg at hc
    have hlen := decodeAll_ok_length fs (toOptTokens line) vs h
    rw [hc.2] at hlen ⊢
    simp [hlen]

theorem splitLastBang_eq_none {l : List Char} (h : splitLastBang l = none) :
    '!' ∉ l := by
  induction l with
  | nil => simp
  | cons c rest ih =>
      simp only [splitLastBang] at h
      rcases hs : splitLastBang rest with _ | ⟨a, b⟩ <;> rw [hs] at h
      · by_cases hc : c = '!'
        · rw [if_pos hc] at h; cases h
        · rw [if_neg hc] at h
          intro m
          rcases List.mem_cons.mp m with e | m2
          · exact hc e.symm
          · exact ih hs m2
      · cases h

theorem splitLastBang_eq_some :
    ∀ {l a b : List Char}, splitLastBang l = some (a, b) →
      l = a ++ '!' :: b ∧ '!' ∉ b := by
  intro l
  induction l with
  | nil => intro a b h; cases h
  | cons c rest ih =>
      intro a b h
      simp only [splitLastBang] at h
      rcases hs : splitLastBang rest with _ | ⟨a', b'⟩ <;> rw [hs] at h
      · by_cases hc : c = '!'
        · rw [if_pos hc] at h
          cases h
          subst hc
          exact ⟨rfl, splitLastBang_eq_none hs⟩
        · rw [if_neg hc] at h; cases h
      · cases h
        obtain ⟨he, hb⟩ := ih hs
        exact ⟨by rw [he]; rfl, hb⟩

theorem checksumContentsL_eq_none_of_not_mem {l : List Char}
    (h : '!' ∉ l) : checksumContentsL l = none := by
  induction l with
  | nil => rfl
  | cons c rest ih =>
      have hr : '!' ∉ rest := fun m => h (List.mem_cons_of_mem c m)
      have hrec := ih hr
      simp only [checksumContentsL]
      by_cases hc : c = '/'
      · rw [if_pos hc]
        rcases hs : splitLastBang rest with _ | ⟨a, b⟩
        · exact hrec
        · obtain ⟨he, _⟩ := splitLastBang_eq_some hs
          exact absurd (by rw [he]; simp : '!' ∈ rest) hr
      · rw [if_neg hc]
        exact hrec

theorem checksumHexL_eq_none_of_not_mem {l : List Char} (h : '!' ∉ l) :
    checksumHexL l = none := by
  induction l with
  | nil => rfl
  | cons c rest ih =>
      have hc : ¬c = '!' := fun e => h (e ▸ List.mem_cons_self c rest)
      have hr : '!' ∉ rest := fun m => h (List.mem_cons_of_mem c m)
      simp only [checksumHexL, if_neg hc]
      exact ih hr

/-- The decomposition produced by a successful match of the span regex: the
match starts at the first `/` of the text and ends at the last `!`, with
at least one character in between. -/
theorem checksumContentsL_decomp :
    ∀ {l t : List Char}, checksumContentsL l = some t →
      ∃ pre suf, l = pre ++ t ++ suf ∧ '/' ∉ pre ∧ '!' ∉ suf ∧
        t.head? = some '/' ∧ t.getLast? = some '!' ∧ 3 ≤ t.length := by
  intro l
  induction l with
  | nil => intro t h; cases h
  | cons c rest ih =>
      intro t h
      simp only [checksumContentsL] at h
      by_cases hc : c = '/'
      · rw [if_pos hc] at h
        subst hc
        rcases hs : splitLastBang rest with _ | ⟨a, b⟩ <;>
          simp only [hs] at h
        · have : '!' ∉ rest := splitLastBang_eq_none hs
          rw [checksumContentsL_eq_none_of_not_mem this] at h
          cases h
        · obtain ⟨he, hb⟩ := splitLastBang_eq_some hs
          by_cases ha : a.isEmpty
          · rw [if_pos ha] at h
            rw [List.isEmpty_iff] at ha
            subst ha
            simp only [List.nil_append] at he
            subst he
            simp only [checksumContentsL] at h
            rw [if_neg (by decide : ¬('!' : Char) = '/')] at h
            rw [checksumContentsL_eq_none_of_not_mem hb] at h
            cases h
          · rw [if_neg ha] at h
            cases h
            refine ⟨[], b, ?_, by simp, hb, rfl, ?_, ?_⟩
            · rw [he]; simp
            · show ((('/' :: a) ++ ['!']).getLast? = some '!')
              exact List.getLast?_concat _
            · have hne : a ≠ [] := fun e => ha (by rw [e]; rfl)
              have : 1 ≤ a.length := List.length_pos.mpr hne
              simp only [List.length_cons, List.length_append,
                List.length_singleton]
              omega
      · rw [if_neg hc] at h
        obtain ⟨pre, suf, hdec, hpre, hsuf, hh, hl, hlen⟩ := ih h
        refine ⟨c :: pre, suf, by rw [hdec]; rfl, ?_, hsuf, hh, hl, hlen⟩
        intro m
        rcases List.mem_cons.mp m with e | m2
        · exact hc e.symm
        · exact hpre m2

/-- Keys of the mapping built by the `TelegramParser.parse` loop: a
signature is keyed in the final mapping exactly when it was already keyed
in the accumulator or some remaining entry with that signature finds a
match in the telegram text. -/
theorem parseEntries_ok_keys {α : Type} (data : String) :
    ∀ (entries : List (SpecEntry α)) (acc tel : List (String × α)),
      parseEntries data entries acc = .ok tel → ∀ sig : String,
      ((∃ v, (sig, v) ∈ tel) ↔ (∃ v, (sig, v) ∈ acc) ∨
        ∃ e, e ∈ entries ∧ e.signature = sig ∧ ∃ m, e.search data = some m) := by
  intro entries
  induction entries with
  | nil =>
      intro acc tel h sig
      cases h
      simp
  | cons e rest ih =>
      intro acc tel h sig
      simp only [parseEntries] at h
      rcases hs : e.search data with _ | m <;> simp only [hs] at h
      · rw [ih acc tel h sig]
        constructor
        · rintro (hacc | ⟨e', he', hsig, hm⟩)
          · exact Or.inl hacc
          · exact Or.inr ⟨e', List.mem_cons_of_mem e he', hsig, hm⟩
        · rintro (hacc | ⟨e', he', hsig, hm⟩)
          · exact Or.inl hacc
          · rcases List.mem_cons.mp he' with rfl | he2
            · rcases hm with ⟨m', hm'⟩
              rw [hs] at hm'
              cases hm'
            · exact Or.inr ⟨e', he2, hsig, hm⟩
      · rcases hp : e.parse m with err | v <;> simp only [hp] at h
        · cases h
        · rw [ih _ tel h sig]
          constructor
          · rintro (⟨w, hw⟩ | ⟨e', he', hsig, hm⟩)
            · rcases List.mem_append.mp hw with hacc | hone
              · exact Or.inl ⟨w, hacc⟩
              · have : sig = e.signature := by
                  rcases List.mem_singleton.mp hone with h1
                  exact congrArg Prod.fst h1
                exact Or.inr ⟨e, List.mem_cons_self e rest, this.symm,
                  m, hs⟩
            · exact Or.inr ⟨e', List.mem_cons_of_mem e he', hsig, hm⟩
          · rintro (⟨w, hw⟩ | ⟨e', he', hsig, hm⟩)
            · exact Or.inl ⟨w, List.mem_append.mpr (Or.inl hw)⟩
            · rcases List.mem_cons.mp he' with rfl | he2
              · exact Or.inl ⟨v, List.mem_append.mpr (Or.inr (by
                  rw [← hsig]; exact List.mem_singleton.mpr rfl))⟩
              · exact Or.inr ⟨e', he2, hsig, hm⟩

/-! ## Claim theorems -/

/-- C1 (amended): line decoding raises `ParseError` whenever the number of
extracted value tokens differs from the number N of configured value-format
decoders, and proceeds to decode each token when the count equals N *and at
least one token was extracted*; with N = 0 even a count match (0 = 0)
raises `ParseError`. -/
theorem C1_arity_amended {α : Type} (fs : List (String → Except PyExc α))
    (line : String) :
    ((toOptTokens line).length ≠ fs.length →
      DSMRObjectParser._parse fs line = .error .parseError) ∧
    (toOptTokens line ≠ [] → (toOptTokens line).length = fs.length →
      DSMRObjectParser._parse fs line = decodeAll fs (toOptTokens line)) := by
  constructor
  · intro h
    unfold DSMRObjectParser._parse
    rw [if_pos (Or.inr h)]
  · intro h1 h2
    unfold DSMRObjectParser._parse
    have hcond : ¬((toOptTokens line).isEmpty ∨
        (toOptTokens line).length ≠ fs.length) := by
      rintro (hem | hne)
      · exact h1 (List.isEmpty_iff.mp hem)
      · exact hne h2
    rw [if_neg hcond]

/-- C1 counterexample: with zero configured decoders and a line with zero
extracted tokens, the counts are equal (0 = 0) yet `_parse` raises
`ParseError` instead of decoding (which would return `ok []`). -/
theorem C1_zero_formats_cex :
    (toOptTokens "x").length =
      ([] : List (String → Except PyExc String)).length ∧
    DSMRObjectParser._parse ([] : List (String → Except PyExc String)) "x" =
      .error .parseError :=
  ⟨rfl, rfl⟩

/-- C1 witness: a mismatching line raises `ParseError`; a one-token line
with one decoder is decoded. -/
theorem C1_arity_witness :
    DSMRObjectParser._parse [fun t => (Except.ok t : Except PyExc String)]
      "no groups" = .error .parseError ∧
    DSMRObjectParser._parse [fun t => (Except.ok t : Except PyExc String)]
      "1-0:1.8.1(123)" =
      decodeAll [fun t => (Except.ok t : Except PyExc String)]
        (toOptTokens "1-0:1.8.1(123)") :=
  ⟨(C1_arity_amended _ _).1 (by decide),
   (C1_arity_amended _ _).2 (by decide) (by decide)⟩

/-- C2 (amended): the checksum-covered span runs from the first `/` of the
telegram through the LAST `!` that lies at least two characters after it
(the regex `\/.+\!` is greedy), not the first such `!`: whenever the span
regex matches, the text splits as `pre ++ span ++ suf` with no `/` before
the span and no `!` after it, and the span itself starts with `/`, ends
with `!` and has at least one character in between. -/
theorem C2_span_amended (s : String) (t : List Char)
    (h : checksumContentsL s.data = some t) :
    ∃ pre suf, s.data = pre ++ t ++ suf ∧ '/' ∉ pre ∧ '!' ∉ suf ∧
      t.head? = some '/' ∧ t.getLast? = some '!' ∧ 3 ≤ t.length :=
  checksumContentsL_decomp h

set_option maxRecDepth 10000 in
/-- C2 counterexample: the telegram `/a!b!4873` is accepted by
`validate_checksum` (its CRC16 matches), and the span the code covers is
`/a!b!` — up to the last `!` — while the substring from the first `/`
through the first subsequent `!` (the spec's words, `checksumContentsSpec`)
is `/a!`. -/
theorem C2_greedy_cex :
    TelegramParser.validate_checksum "/a!b!4873" = .ok () ∧
    checksumContents "/a!b!4873" = some "/a!b!" ∧
    checksumContentsSpec "/a!b!4873" = some "/a!" :=
  ⟨rfl, rfl, rfl⟩

/-- C2 witness: the decomposition at the concrete telegram `/a!b!`. -/
theorem C2_span_witness :
    ∃ pre suf, ("/a!b!" : String).data =
      pre ++ ['/', 'a', '!', 'b', '!'] ++ suf ∧ '/' ∉ pre ∧ '!' ∉ suf ∧
      (['/', 'a', '!', 'b', '!'].head? = some '/') ∧
      (['/', 'a', '!', 'b', '!'].getLast? = some '!') ∧
      3 ≤ (['/', 'a', '!', 'b', '!'] : List Char).length :=
  C2_span_amended "/a!b!" ['/', 'a', '!', 'b', '!'] rfl

/-- C3 (amended): a present token with exactly one `*` is split there: the
value is the coercion of the part before the `*` and the unit is the part
after it; a token with two or more `*` makes `value, unit =
value.split('*')` raise a `ValueError` (it is NOT split on the first
occurrence); a token without `*` gets an absent unit. -/
theorem C3_star_split_amended {α : Type}
    (coerce : String → Except PyExc α) (s : String) (u v : List Char) :
    (s.data = u ++ '*' :: v → '*' ∉ u → '*' ∉ v →
      ValueParser.parse coerce (some s) =
        (coerce u.asString).map fun cv => ⟨some cv, some v.asString⟩) ∧
    (2 ≤ s.data.count '*' →
      ValueParser.parse coerce (some s) = .error .valueError) ∧
    ('*' ∉ s.data →
      ValueParser.parse coerce (some s) =
        (coerce s).map fun cv => ⟨some cv, none⟩) := by
  refine ⟨?_, ?_, ?_⟩
  · intro hdata hu hv
    have hne : s.data ≠ [] := by simp [hdata]
    have hmem : '*' ∈ s.data := by
      rw [hdata]
      exact List.mem_append.mpr (Or.inr (List.mem_cons_self _ _))
    simp only [ValueParser.parse]
    rw [if_pos ⟨hne, hmem⟩, hdata, pySplit_append v hu,
      pySplit_of_not_mem hv]
    cases hc : coerce u.asString <;> simp [hc, Except.map]
  · intro hcount
    have hpos : 0 < s.data.count '*' := by omega
    have hmem : '*' ∈ s.data := List.count_pos_iff.mp hpos
    have hne : s.data ≠ [] := List.ne_nil_of_mem hmem
    simp only [ValueParser.parse]
    rw [if_pos ⟨hne, hmem⟩]
    have hlen : (pySplit '*' s.data).length = s.data.count '*' + 1 :=
      pySplit_length _ _
    rcases hp : pySplit '*' s.data with _ | ⟨a, rest1⟩
    · rfl
    · rcases rest1 with _ | ⟨b, rest2⟩
      · rfl
      · rcases rest2 with _ | ⟨c, t⟩
        · rw [hp] at hlen
          simp only [List.length_cons, List.length_nil] at hlen
          omega
        · rfl
  · intro hnm
    simp only [ValueParser.parse]
    rw [if_neg (by rintro ⟨h1, h2⟩; exact hnm h2)]
    cases hc : coerce s <;> simp [hc, Except.map]

/-- C3 counterexample: on the token `1*2*3` (more than one `*`) the decoder
raises a `ValueError` instead of splitting at the first `*` into value `1`
and unit `2*3` as the claim states. -/
theorem C3_multi_star_cex :
    ValueParser.parse (fun t => (Except.ok t : Except PyExc String))
      (some "1*2*3") = .error .valueError :=
  rfl

/-- C3 witness: the three amended behaviours at concrete tokens. -/
theorem C3_star_split_witness :
    ValueParser.parse (fun t => (Except.ok t : Except PyExc String))
      (some "1*2") = .ok ⟨some "1", some "2"⟩ ∧
    ValueParser.parse (fun t => (Except.ok t : Except PyExc String))
      (some "12*3*4") = .error .valueError ∧
    ValueParser.parse (fun t => (Except.ok t : Except PyExc String))
      (some "45") = .ok ⟨some "45", none⟩ := by
  refine ⟨?_, ?_, ?_⟩
  · exact (C3_star_split_amended _ "1*2" ['1'] ['2']).1 (by decide)
      (by decide) (by decide)
  · exact (C3_star_split_amended (fun t =>
      (Except.ok t : Except PyExc String)) "12*3*4" [] []).2.1 (by decide)
  · exact (C3_star_split_amended (fun t =>
      (Except.ok t : Except PyExc String)) "45" [] []).2.2 (by decide)

/-- C4: when `_parse` succeeds, `MBusParser.parse` wraps the decoded values
in the legacy `MBusObject` shape exactly when two values were decoded and
in the `MBusObjectV2_2` shape for every other count — the count is the only
condition — and the decoded-value count equals the extracted token
count. -/
theorem C4_mbus_arity_dispatch {α : Type}
    (fs : List (String → Except PyExc α)) (line : String)
    (vs : List (ValueGroup α)) (h : DSMRObjectParser._parse fs line = .ok vs) :
    MBusParser.parse fs line = .ok (if vs.length = 2
      then MBusResult.mbusObject vs else MBusResult.mbusObjectV2_2 vs) ∧
    vs.length = (toOptTokens line).length := by
  refine ⟨?_, (_parse_ok_lengths h).1⟩
  have hred : MBusParser.parse fs line = if vs.length = 2
      then Except.ok (MBusResult.mbusObject vs)
      else Except.ok (MBusResult.mbusObjectV2_2 vs) := by
    unfold MBusParser.parse
    rw [h]
  rw [hred]
  by_cases h2 : vs.length = 2
  · rw [if_pos h2, if_pos h2]
  · rw [if_neg h2, if_neg h2]

/-- C4 witness: a 2-token gas line yields the legacy `MBusObject` shape; a
4-token line yields the `MBusObjectV2_2` shape. -/
theorem C4_mbus_witness :
    MBusParser.parse
      [fun t => (Except.ok t : Except PyExc String), fun t => Except.ok t]
      "0-1:24.2.1(123)(456)" =
      .ok (MBusResult.mbusObject [⟨some "123", none⟩, ⟨some "456", none⟩]) ∧
    MBusParser.parse
      [fun t => (Except.ok t : Except PyExc String), fun t => Except.ok t,
        fun t => Except.ok t, fun t => Except.ok t]
      "0-1:24(1)(2)(3)(4)" =
      .ok (MBusResult.mbusObjectV2_2 [⟨some "1", none⟩, ⟨some "2", none⟩,
        ⟨some "3", none⟩, ⟨some "4", none⟩]) := by
  constructor
  · exact (C4_mbus_arity_dispatch
      [fun t => (Except.ok t : Except PyExc String), fun t => Except.ok t]
      "0-1:24.2.1(123)(456)"
      [⟨some "123", none⟩, ⟨some "456", none⟩] rfl).1
  · exact (C4_mbus_arity_dispatch
      [fun t => (Except.ok t : Except PyExc String), fun t => Except.ok t,
        fun t => Except.ok t, fun t => Except.ok t]
      "0-1:24(1)(2)(3)(4)"
      [⟨some "1", none⟩, ⟨some "2", none⟩, ⟨some "3", none⟩,
        ⟨some "4", none⟩] rfl).1

/-- C5: an empty parenthesized group `()` is mapped to the absence marker
`none`, and decoding an absent token yields
`{value: absent, unit: absent}` for EVERY coercion function — the
conclusion holds for an arbitrary `coerce`, which is therefore never
invoked. -/
theorem C5_empty_group {α : Type} (coerce : String → Except PyExc α)
    (line : String) (i : Nat)
    (h : (extractTokens line.data)[i]? = some "") :
    (toOptTokens line)[i]? = some none ∧
    ValueParser.parse coerce none = .ok ⟨none, none⟩ := by
  refine ⟨?_, rfl⟩
  simp [toOptTokens, List.getElem?_map, h]

/-- C5 witness: the empty group of `x()` decodes to an absent value and
unit under an arbitrary concrete coercion. -/
theorem C5_empty_group_witness :
    (toOptTokens "x()")[0]? = some none ∧
    ValueParser.parse (fun _ => (Except.ok 0 : Except PyExc Nat)) none =
      .ok ⟨none, none⟩ :=
  C5_empty_group _ "x()" 0 (by decide)

/-- C6: a telegram with no `!` raises `ParseError` (and therefore never
`InvalidChecksumError`): both span regexes require a `!`, so the missing
pieces are detected before any CRC comparison. -/
theorem C6_missing_terminator (s : String) (h : '!' ∉ s.data) :
    TelegramParser.validate_checksum s = .error .parseError := by
  unfold TelegramParser.validate_checksum
  rw [checksumHexL_eq_none_of_not_mem h]
  rcases hc : checksumContentsL s.data with _ | t <;> rfl

/-- C6 witness: a concrete telegram without `!`. -/
theorem C6_missing_terminator_witness :
    TelegramParser.validate_checksum "abc" = .error .parseError :=
  C6_missing_terminator "abc" (by decide)

/-- C7 (code bug): the checksum-digit regex class `[0-9A-Z]` is wider than
hexadecimal, so on `/ab!GGGG` the code reaches `int('GGGG', base=16)`,
which raises a `ValueError` — an exception that is neither `ParseError`
nor `InvalidChecksumError`, contradicting the claim (and the function's
own docstring). -/
theorem C7_nonhex_checksum_bug :
    TelegramParser.validate_checksum "/ab!GGGG" = .error .valueError :=
  rfl

/-- C8: when `TelegramParser.parse` returns a mapping, a signature is keyed
in it exactly when some specification entry with that signature matches
the telegram text; a non-matching signature is simply absent and causes no
error. -/
theorem C8_signature_keys {α : Type} (enable : Bool)
    (spec : List (SpecEntry α)) (data : String) (tel : List (String × α))
    (sig : String) (h : TelegramParser.parse enable spec data = .ok tel) :
    (∃ v, (sig, v) ∈ tel) ↔
      ∃ e, e ∈ spec ∧ e.signature = sig ∧ ∃ m, e.search data = some m := by
  have hpe : parseEntries data spec [] = .ok tel := by
    unfold TelegramParser.parse at h
    cases enable with
    | false => simpa using h
    | true =>
        simp only [if_true] at h
        rcases hv : TelegramParser.validate_checksum data with e | u <;>
          rw [hv] at h
        · cases h
        · exact h
  rw [parseEntries_ok_keys data spec [] tel hpe sig]
  simp

/-- C8 witness: a two-entry specification where only signature `A`
matches. -/
theorem C8_signature_keys_witness :
    (∃ v, (("A", v) : String × Nat) ∈ [(("A", 0) : String × Nat)]) ↔
      ∃ e, e ∈ [(⟨"A", fun _ => some "m", fun _ => Except.ok 0⟩ :
          SpecEntry Nat), ⟨"B", fun _ => none, fun _ => Except.ok 0⟩] ∧
        e.signature = "A" ∧ ∃ m, e.search "d" = some m :=
  C8_signature_keys false
    [⟨"A", fun _ => some "m", fun _ => Except.ok 0⟩,
     ⟨"B", fun _ => none, fun _ => Except.ok 0⟩] "d" [("A", 0)] "A" rfl

/-- C9: the Profile-Generic decoder raises `NotImplementedError` on every
input line and never returns a decoded object. -/
theorem C9_profile_generic_unimplemented {α : Type}
    (fs : List (String → Except PyExc α)) (line : String) :
    ProfileGenericParser.parse fs line = .error .notImplementedError :=
  rfl

/-- C10: with zero configured value-format decoders, `_parse` raises
`ParseError` on every line — even when the extracted token count (0)
equals the configured count (0), because of the `not values` guard. -/
theorem C10_zero_formats_always_error {α : Type} (line : String) :
    DSMRObjectParser._parse ([] : List (String → Except PyExc α)) line =
      .error .parseError := by
  rcases ht : toOptTokens line with _ | ⟨v, vs⟩ <;>
    simp [DSMRObjectParser._parse, ht]

example : extractTokens "(a(b)c)".data = ["b"] := by decide
example : extractTokens "0-0:96.1.1(4B35)".data = ["4B35"] := by decide
example : toOptTokens "x()(12)" = [none, some "12"] := by decide
example : pySplit '*' "1*2*3".data = ["1".data, "2".data, "3".data] := by decide
example :
    ValueParser.parse (fun t => (Except.ok t : Except PyExc String))
      (some "1*2*3") = .error .valueError := rfl
example :
    DSMRObjectParser._parse
      [fun t => (Except.ok t : Except PyExc String)] "1-0:1.8.1(123)" =
    .ok [⟨some "123", none⟩] := rfl
example : checksumContents "/a!b!" = some "/a!b!" := rfl
example : checksumContentsSpec "/a!b!" = some "/a!" := rfl
example : checksumContents "/!" = none := rfl
example : checksumContents "x/ab!cd!e" = some "/ab!cd!" := rfl
example : checksumHexL "/ab!GGGG".data = some "GGGG".data := rfl
example : checksumHexL "!!1234".data = some "1234".data := rfl
example : hexVal? "GGGG".data = none := rfl
example : hexVal? "1A2F".data = some 0x1A2F := rfl
example : TelegramParser.validate_checksum "/ab!GGGG" = .error .valueError := rfl
example : TelegramParser.validate_checksum "abc" = .error .parseError := rfl
